import Mathlib

/-!
Verification development for a stand-off text annotation store
(resources, datasets, keys, data, annotations, selectors, the span
relation algebra, local sequence alignment, and substore composition).

The repository ships its behavioural test-suite; the engine it exercises
is a compiled extension whose sources are not part of the repository.
The definitions below are therefore modelled from the specification,
with the test-suite fixing the behaviour wherever the two disagree.

Everything is executable: the concrete scenarios of the test-suite are
replayed by evaluation inside the proofs.
-/

namespace Stam

/-- Modelled from the spec: the error kinds of the engine (§7); the
serialization-related kinds are out of scope here. -/
inductive StamError where
  | notFound
  | offsetOutOfBounds
  | cyclicSelector
  | referentialIntegrity
  deriving Repr, DecidableEq

/-- Modelled from the spec: a cursor is a signed offset into a resource's
text, either begin-aligned (counted from the start) or end-aligned
(counted backward from the end). -/
inductive Cursor where
  | beginAligned (n : Nat)
  | endAligned (n : Nat)
  deriving Repr, DecidableEq

/-- Modelled from the spec: `Offset = (begin, end)`, end exclusive. -/
structure Offset where
  b : Cursor
  e : Cursor
  deriving Repr, DecidableEq

/-- `Offset.simple b e`: both cursors begin-aligned. -/
def Offset.simple (b e : Nat) : Offset :=
  ⟨Cursor.beginAligned b, Cursor.beginAligned e⟩

/-- `Offset.whole`: the whole text, begin-aligned 0 to end-aligned 0. -/
def Offset.whole : Offset :=
  ⟨Cursor.beginAligned 0, Cursor.endAligned 0⟩

/-- Modelled from the spec: a resource owns one immutable text buffer
(here a list of characters) and an identifier. -/
structure TextResource where
  id : String
  text : List Char
  deriving Repr, DecidableEq

/-- Modelled from the spec: a resolved concrete span
`(resource, begin, end)` with `begin ≤ end ≤ len` enforced at
construction time. -/
structure TextSelection where
  res : String
  b : Nat
  e : Nat
  deriving Repr, DecidableEq

/-- Modelled from the spec: resolve a cursor against a text length;
begin-aligned `c` maps to `c`, end-aligned `c` to `len - c`, failing
with `offsetOutOfBounds` when the bound leaves `[0, len]`. -/
def resolveCursor (len : Nat) : Cursor → Except StamError Nat
  | Cursor.beginAligned n => if n ≤ len then Except.ok n else Except.error StamError.offsetOutOfBounds
  | Cursor.endAligned n => if n ≤ len then Except.ok (len - n) else Except.error StamError.offsetOutOfBounds

/-- Decidable equality of fallible results, so that concrete scenarios
can be settled by evaluation. -/
instance {ε α : Type} [DecidableEq ε] [DecidableEq α] : DecidableEq (Except ε α)
  | Except.ok x, Except.ok y =>
      if h : x = y then Decidable.isTrue (by rw [h])
      else Decidable.isFalse (fun hc => h (Except.ok.inj hc))
  | Except.ok _, Except.error _ => Decidable.isFalse (fun hc => Except.noConfusion hc)
  | Except.error _, Except.ok _ => Decidable.isFalse (fun hc => Except.noConfusion hc)
  | Except.error x, Except.error y =>
      if h : x = y then Decidable.isTrue (by rw [h])
      else Decidable.isFalse (fun hc => h (Except.error.inj hc))

/-- The slice `T[b:e]` of a text (Python slice semantics on valid bounds). -/
def sliceL (xs : List Char) (b e : Nat) : List Char :=
  (xs.drop b).take (e - b)

/-- Modelled from the spec: `resource.textselection(offset)` resolves both
cursors and fails with `offsetOutOfBounds` when the resolved begin exceeds
the resolved end or either bound leaves `[0, len]`. -/
def TextResource.textselection (r : TextResource) (off : Offset) : Except StamError TextSelection :=
  match resolveCursor r.text.length off.b, resolveCursor r.text.length off.e with
  | Except.ok b, Except.ok e =>
      if b ≤ e then Except.ok ⟨r.id, b, e⟩ else Except.error StamError.offsetOutOfBounds
  | Except.error er, _ => Except.error er
  | Except.ok _, Except.error er => Except.error er

/-- The text covered by a selection inside its resource. -/
def TextSelection.textIn (ts : TextSelection) (r : TextResource) : List Char :=
  sliceL r.text ts.b ts.e

/-- Modelled from the spec: an `AnnotationData` item is an immutable
(key, value) pair with an identifier, owned by a dataset. -/
structure AnnoData where
  id : String
  key : String
  value : String
  deriving Repr, DecidableEq

/-- Modelled from the spec: an `AnnotationDataSet` owns deduplicated
keys and data items. -/
structure AnnoDataSet where
  id : String
  keys : List String
  data : List AnnoData
  deriving Repr, DecidableEq

/-- Modelled from the spec: the tagged selector variants the claims
exercise (text range, whole resource, another annotation, composite). -/
inductive Selector where
  | textselector (resource : String) (off : Offset)
  | resourceselector (resource : String)
  | annoselector (target : String) (off : Offset)
  | compositeselector (children : List Selector)
  deriving Repr

/-- Modelled from the spec: an annotation owns one selector (its target)
and a set of data references, each a (dataset id, data id) pair. -/
structure Anno where
  id : String
  target : Selector
  data : List (String × String)
  deriving Repr

/-- Modelled from the spec: the top-level store owning resources,
datasets and annotations. -/
structure AnnoStore where
  resources : List TextResource
  datasets : List AnnoDataSet
  annos : List Anno
  deriving Repr

/-- Identifier lookup of a resource; fails with `notFound` when absent. -/
def AnnoStore.resource (s : AnnoStore) (rid : String) : Except StamError TextResource :=
  match s.resources.find? (fun r => r.id == rid) with
  | some r => Except.ok r
  | none => Except.error StamError.notFound

/-- Identifier lookup of an annotation; fails with `notFound` when absent. -/
def AnnoStore.anno (s : AnnoStore) (aid : String) : Except StamError Anno :=
  match s.annos.find? (fun a => a.id == aid) with
  | some a => Except.ok a
  | none => Except.error StamError.notFound

/-- Identifier lookup of a dataset; fails with `notFound` when absent. -/
def AnnoStore.dataset (s : AnnoStore) (dsid : String) : Except StamError AnnoDataSet :=
  match s.datasets.find? (fun d => d.id == dsid) with
  | some d => Except.ok d
  | none => Except.error StamError.notFound

/-- Identifier lookup of a data item inside a dataset. -/
def AnnoStore.annodata (s : AnnoStore) (dsid did : String) : Except StamError AnnoData :=
  match s.dataset dsid with
  | Except.error er => Except.error er
  | Except.ok ds =>
      match ds.data.find? (fun d => d.id == did) with
      | some d => Except.ok d
      | none => Except.error StamError.notFound

/-- Identifier lookup of a key inside a dataset. -/
def AnnoStore.datakey (s : AnnoStore) (dsid k : String) : Except StamError String :=
  match s.dataset dsid with
  | Except.error er => Except.error er
  | Except.ok ds =>
      if ds.keys.any (fun k2 => k2 == k) then Except.ok k else Except.error StamError.notFound

/-- Textual (begin-offset, then end-offset) order on spans. -/
def spanLE (x y : TextSelection) : Bool :=
  decide (x.b < y.b ∨ (x.b = y.b ∧ x.e ≤ y.e))

/-- Insert into a list kept sorted by `le`. -/
def insertBy (le : α → α → Bool) (x : α) : List α → List α
  | [] => [x]
  | y :: ys => if le x y then x :: y :: ys else y :: insertBy le x ys

/-- Insertion sort by `le`. -/
def sortBy (le : α → α → Bool) : List α → List α
  | [] => []
  | x :: xs => insertBy le x (sortBy le xs)

/-- Length of a span. -/
def spanLen (ts : TextSelection) : Nat := ts.e - ts.b

/-- Total length of the concatenation of a sequence of spans. -/
def totalLen (l : List TextSelection) : Nat := (l.map spanLen).sum

/-- Restrict a sequence of spans to the window `[b, e)` of their
concatenation, producing the covering sub-spans. -/
def cutSpans : List TextSelection → Nat → Nat → List TextSelection
  | [], _, _ => []
  | ts :: rest, b, e =>
      let L := spanLen ts
      let keepB := min L b
      let keepE := min L e
      let here := if keepB < keepE then [TextSelection.mk ts.res (ts.b + keepB) (ts.b + keepE)] else []
      here ++ cutSpans rest (b - L) (e - L)

/-- Modelled from the spec (§4.1): apply an offset *relative to the
concatenation* of a target's own selections (default whole = identity). -/
def applyRelOffset (l : List TextSelection) (off : Offset) : Except StamError (List TextSelection) := do
  let total := totalLen l
  let b ← resolveCursor total off.b
  let e ← resolveCursor total off.e
  if b ≤ e then Except.ok (cutSpans l b e) else Except.error StamError.offsetOutOfBounds

/-- Resolve a list of selectors left to right with the given resolver,
failing on the first error. -/
def resolveSelMany (rec : Selector → Except StamError (List TextSelection)) :
    List Selector → Except StamError (List (List TextSelection))
  | [] => Except.ok []
  | c :: rest => do
      let x ← rec c
      let xs ← resolveSelMany rec rest
      Except.ok (x :: xs)

/-- One layer of selector resolution, with `rec` resolving nested
targets. -/
def resolveSelStep (s : AnnoStore)
    (rec : Selector → Except StamError (List TextSelection)) :
    Selector → Except StamError (List TextSelection)
  | Selector.textselector rid off => do
      let r ← s.resource rid
      let ts ← r.textselection off
      Except.ok [ts]
  | Selector.resourceselector _ => Except.ok []
  | Selector.annoselector aid off => do
      let a ← s.anno aid
      let subs ← rec a.target
      applyRelOffset subs off
  | Selector.compositeselector children => do
      let ls ← resolveSelMany rec children
      Except.ok (sortBy spanLE ls.flatten)

/-- Modelled from the spec (§4.1): resolve a selector to the ordered
sequence of text selections it denotes (empty for non-textual
selectors); the fuel bounds chains of annotation selectors, and running
out of it models `CyclicSelectorError`. Composite results are sorted
into textual order for text-yielding operations. -/
def resolveSel (s : AnnoStore) : Nat → Selector → Except StamError (List TextSelection)
  | 0 => fun _ => Except.error StamError.cyclicSelector
  | fuel + 1 => resolveSelStep s (resolveSel s fuel)

/-- Default recursion budget: enough for any acyclic selector chain. -/
def AnnoStore.defaultFuel (s : AnnoStore) : Nat := s.annos.length + 2

/-- `annotation.textselections()`: the spans the annotation's target
resolves to. -/
def AnnoStore.textselectionsOf (s : AnnoStore) (a : Anno) : Except StamError (List TextSelection) :=
  resolveSel s s.defaultFuel a.target

mutual

/-- The ids of the annotations a selector points to, in the declaration
order of the (composite's) sub-selectors. -/
def targetIds : Selector → List String
  | Selector.annoselector aid _ => [aid]
  | Selector.compositeselector children => targetIdsMany children
  | _ => []

/-- `targetIds` over a list of selectors, preserving order. -/
def targetIdsMany : List Selector → List String
  | [] => []
  | c :: rest => targetIds c ++ targetIdsMany rest

end

/-- Comparison key of a target annotation: the first resolved span, with
unresolvable targets sorting last. -/
def AnnoStore.posKey (s : AnnoStore) (aid : String) : Option (Nat × Nat) :=
  match s.anno aid with
  | Except.ok a =>
      match s.textselectionsOf a with
      | Except.ok (ts :: _) => some (ts.b, ts.e)
      | _ => none
  | Except.error _ => none

/-- Order on comparison keys: lexicographic on spans, `none` last. -/
def keyLE : Option (Nat × Nat) → Option (Nat × Nat) → Bool
  | some (b1, e1), some (b2, e2) => decide (b1 < b2 ∨ (b1 = b2 ∧ e1 ≤ e2))
  | some _, none => true
  | none, some _ => false
  | none, none => true

/-- `annotation.annotations_in_targets()`: the annotations the target
points to; the test-suite fixes the order to be textual position (the
spec's claim of declaration order for this query does not match the
test-suite, which this model follows). -/
def AnnoStore.annosInTargets (s : AnnoStore) (a : Anno) : List String :=
  sortBy (fun x y => keyLE (s.posKey x) (s.posKey y)) (targetIds a.target)

/-- Does the annotation reference any data belonging to dataset `dsid`? -/
def Anno.usesDataset (a : Anno) (dsid : String) : Bool :=
  a.data.any (fun p => p.1 == dsid)

/-- Does the annotation reference the data item `(dsid, did)`? -/
def Anno.usesData (a : Anno) (dsid did : String) : Bool :=
  a.data.any (fun p => p.1 == dsid && p.2 == did)

/-- Does the annotation reference any data item whose key is `(dsid, k)`?
The key of a referenced data item is looked up in the store. -/
def AnnoStore.usesKey (s : AnnoStore) (a : Anno) (dsid k : String) : Bool :=
  a.data.any (fun p =>
    p.1 == dsid &&
    (match s.annodata dsid p.2 with
     | Except.ok d => d.key == k
     | Except.error _ => false))

/-- Modelled from the spec (§4.4): removing a dataset cascades to all
annotations that reference any of its data. -/
def AnnoStore.removeDataset (s : AnnoStore) (dsid : String) : AnnoStore :=
  { s with
    datasets := s.datasets.filter (fun d => !(d.id == dsid)),
    annos := s.annos.filter (fun a => !(a.usesDataset dsid)) }

/-- Removal of one data item in strict mode. The test-suite fixes the
behaviour: the removal succeeds and cascades to the annotations that
reference the item (the spec's claim that a referenced item makes the
call fail does not match the test-suite, which this model follows). -/
def AnnoStore.removeData (s : AnnoStore) (dsid did : String) : AnnoStore :=
  { s with
    datasets := s.datasets.map (fun ds =>
      if ds.id == dsid then { ds with data := ds.data.filter (fun d => !(d.id == did)) } else ds),
    annos := s.annos.filter (fun a => !(a.usesData dsid did)) }

/-- Removal of one key in strict mode. The test-suite fixes the
behaviour: the removal succeeds, deletes the key and its data items,
and cascades to the annotations referencing data under the key. -/
def AnnoStore.removeKey (s : AnnoStore) (dsid k : String) : AnnoStore :=
  { s with
    datasets := s.datasets.map (fun ds =>
      if ds.id == dsid then
        { ds with
          keys := ds.keys.filter (fun k2 => !(k2 == k)),
          data := ds.data.filter (fun d => !(d.key == k)) }
      else ds),
    annos := s.annos.filter (fun a => !(s.usesKey a dsid k)) }

/-! Concrete stores replaying the test-suite's fixtures. -/

/-- The "Hello world" resource shared by several fixtures. -/
def helloRes : TextResource := ⟨"testres", "Hello world".data⟩

/-- The `Word` annotation of the composite-selector scenario: a
composite over annotation selectors to `A1` (declared first) and `A2`
(declared second). -/
def wordAnno : Anno :=
  ⟨"Word",
   Selector.compositeselector
     [Selector.annoselector "A1" Offset.whole, Selector.annoselector "A2" Offset.whole],
   [("testdataset", "D3")]⟩

/-- The fixture of the composite-selector scenario: `A1` on `[6,11)`
declared first, `A2` on `[0,5)` declared second, and `Word` targeting
both through a composite selector. -/
def store4 : AnnoStore :=
  { resources := [helloRes],
    datasets := [⟨"testdataset", ["pos"],
      [⟨"D1", "pos", "noun"⟩, ⟨"D2", "pos", "interjection"⟩, ⟨"D3", "pos", "word"⟩]⟩],
    annos :=
      [⟨"A1", Selector.textselector "testres" (Offset.simple 6 11), [("testdataset", "D1")]⟩,
       ⟨"A2", Selector.textselector "testres" (Offset.simple 0 5), [("testdataset", "D2")]⟩,
       wordAnno] }

/-- The fixture of the removal scenario: one annotation `A1` on `[6,11)`
referencing data `D1` (key `pos`, value `noun`) of `testdataset`. -/
def store8 : AnnoStore :=
  { resources := [helloRes],
    datasets := [⟨"testdataset", ["pos"], [⟨"D1", "pos", "noun"⟩]⟩],
    annos := [⟨"A1", Selector.textselector "testres" (Offset.simple 6 11), [("testdataset", "D1")]⟩] }

/-! Substore composition (§4.5). -/

/-- Modelled from the spec (§4.5): a child store included into a parent,
contributing its annotations while keeping provenance. -/
structure SubStore where
  id : String
  annos : List Anno
  deriving Repr

/-- Modelled from the spec (§4.5): a store assembled from its own
annotations and a list of included substores. -/
structure ParentStore where
  own : List Anno
  substores : List SubStore
  deriving Repr

/-- Modelled from the spec (§4.5): the parent's logical enumeration of
annotations: its own first (provenance `none`), then, when `includeSub`
is true (the default of the bindings), each included substore's
annotations tagged with that substore's identity. -/
def ParentStore.allAnnos (p : ParentStore) (includeSub : Bool) : List (Anno × Option String) :=
  p.own.map (fun a => (a, none)) ++
    (if includeSub then
      (p.substores.map (fun sub => sub.annos.map (fun a => (a, some sub.id)))).flatten
     else [])

/-- `annotation.substore()`: the provenance of the annotation with the
given id, `none` when it was declared directly in the queried store. -/
def ParentStore.substoreOf (p : ParentStore) (aid : String) : Except StamError (Option String) :=
  match (p.allAnnos true).find? (fun x => x.1.id == aid) with
  | some x => Except.ok x.2
  | none => Except.error StamError.notFound

/-- The level-2 fixture of the substore scenario: `A3` declared in the
parent, `A2` contributed by substore `level1ann`, a metadata annotation
contributed by substore `level1meta`. -/
def storeLevel2 : ParentStore :=
  { own := [⟨"A3", Selector.annoselector "A2" Offset.whole, [("level2set", "DT")]⟩],
    substores :=
      [⟨"level1ann", [⟨"A2", Selector.textselector "testres" (Offset.simple 0 5), [("annset", "DW")]⟩]⟩,
       ⟨"level1meta", [⟨"Meta1", Selector.resourceselector "testres", [("testset", "DA")]⟩]⟩] }

/-! Alignment engine (§4.3): Smith–Waterman-style local alignment. -/

/-- Modelled from the spec (§4.3): exact-match scoring — a match scores
positively, a substitution negatively. -/
def swScore (a b : Char) : Int := if a = b then 2 else -1

/-- Cells of one Smith–Waterman row after the first column: `diag` is the
previous row's cell one to the left, `left` the current row's previous
cell, `prev` the rest of the previous row, `bs` the remaining target. -/
def swRowAux (a : Char) : Int → Int → List Int → List Char → List Int
  | _, _, _, [] => []
  | _, _, [], _ => []
  | diag, left, pj :: prest, bj :: brest =>
      let cell := max (max 0 (diag + swScore a bj)) (max (pj - 1) (left - 1))
      cell :: swRowAux a pj cell prest brest

/-- One Smith–Waterman row (first column is 0: local alignment). -/
def swRow (a : Char) (prev : List Int) (bs : List Char) : List Int :=
  match prev with
  | p0 :: rest => 0 :: swRowAux a p0 0 rest bs
  | [] => []

/-- All rows below the zero row, one per source character. -/
def swRows (bs : List Char) : List Int → List Char → List (List Int)
  | _, [] => []
  | prev, a :: arest =>
      let r := swRow a prev bs
      r :: swRows bs r arest

/-- Modelled from the spec (§4.3): the local-alignment dynamic-programming
table, `H(i,j) = max(0, H(i-1,j-1)+score, H(i-1,j)-1, H(i,j-1)-1)`; row
`i` is the source prefix of length `i`, column `j` the target prefix of
length `j`. -/
def swTable (src tgt : List Char) : List (List Int) :=
  let row0 := List.replicate (tgt.length + 1) (0 : Int)
  row0 :: swRows tgt row0 src

/-- Table cell access (0 outside the table). -/
def tcell (t : List (List Int)) (i j : Nat) : Int :=
  (((t[i]?).getD [])[j]?).getD 0

/-- Best value in a row with its earliest column. -/
def bestInRow : List Int → Nat → Nat × Int → Nat × Int
  | [], _, acc => acc
  | v :: rest, j, (bj, bv) => bestInRow rest (j + 1) (if v > bv then (j, v) else (bj, bv))

/-- Scan the rows for the maximal cell, keeping the earliest one
(row-major): the deterministic end point of the best local alignment. -/
def bestCellGo : List (List Int) → Nat → Nat × Nat × Int → Nat × Nat × Int
  | [], _, acc => acc
  | row :: rest, i, (bi, bj, bv) =>
      let rbest := bestInRow row 0 (0, 0)
      bestCellGo rest (i + 1) (if rbest.2 > bv then (i, rbest.1, rbest.2) else (bi, bj, bv))

/-- The maximal cell of the table. -/
def bestCell (t : List (List Int)) : Nat × Nat × Int :=
  bestCellGo t 0 (0, 0, 0)

/-- A step of the alignment backtrace: a matching diagonal, a
substitution diagonal, or a gap consuming only one side. -/
inductive SwStep where
  | dmatch (i j : Nat)
  | dsub (i j : Nat)
  | gup (i : Nat)
  | gleft (j : Nat)
  deriving Repr, DecidableEq

/-- The character at an index (padding default, never reached on valid
indices). -/
def chAt (xs : List Char) (i : Nat) : Char := (xs[i]?).getD ' '

/-- Backtrace of the best local alignment from cell `(i,j)` down to a
zero cell, preferring the diagonal on ties; produced end-to-start. -/
def swBack (t : List (List Int)) (src tgt : List Char) : Nat → Nat → Nat → List SwStep
  | 0, _, _ => []
  | fuel + 1, i, j =>
      let v := tcell t i j
      if v ≤ 0 then []
      else if 0 < i ∧ 0 < j ∧ v = tcell t (i - 1) (j - 1) + swScore (chAt src (i - 1)) (chAt tgt (j - 1)) then
        (if chAt src (i - 1) = chAt tgt (j - 1) then SwStep.dmatch (i - 1) (j - 1)
         else SwStep.dsub (i - 1) (j - 1)) :: swBack t src tgt fuel (i - 1) (j - 1)
      else if 0 < i ∧ v = tcell t (i - 1) j - 1 then
        SwStep.gup (i - 1) :: swBack t src tgt fuel (i - 1) j
      else if 0 < j ∧ v = tcell t i (j - 1) - 1 then
        SwStep.gleft (j - 1) :: swBack t src tgt fuel i (j - 1)
      else []

/-- Group the maximal consecutive matching-diagonal runs of a forward
step list into alignments `((sourceBegin, sourceEnd), (targetBegin,
targetEnd))`; gaps and substitutions break runs and are not emitted. -/
def swRunsGo : List SwStep → Option ((Nat × Nat) × Nat) → List ((Nat × Nat) × (Nat × Nat))
  | [], none => []
  | [], some ((si, tj), k) => [((si, si + k), (tj, tj + k))]
  | SwStep.dmatch i j :: rest, none => swRunsGo rest (some ((i, j), 1))
  | SwStep.dmatch i j :: rest, some ((si, tj), k) =>
      if i == si + k && j == tj + k then swRunsGo rest (some ((si, tj), k + 1))
      else ((si, si + k), (tj, tj + k)) :: swRunsGo rest (some ((i, j), 1))
  | _ :: rest, some ((si, tj), k) => ((si, si + k), (tj, tj + k)) :: swRunsGo rest none
  | _ :: rest, none => swRunsGo rest none

/-- Modelled from the spec (§4.3): the alignments (maximal equal runs) of
the best-scoring local alignment of `src` against `tgt`. -/
def localAlignments (src tgt : List Char) : List ((Nat × Nat) × (Nat × Nat)) :=
  let t := swTable src tgt
  let best := bestCell t
  if best.2.2 ≤ 0 then []
  else swRunsGo ((swBack t src tgt (best.1 + best.2.1) best.1 best.2.1).reverse) none

/-- Modelled from the spec (§4.3): `align_texts(..., algorithm="local")`
bundles the alignments of the best local region into one transposition;
empty or non-matching inputs give no transposition. -/
def alignTextsLocal (src tgt : List Char) : List (List ((Nat × Nat) × (Nat × Nat))) :=
  match localAlignments src tgt with
  | [] => []
  | als => [als]

/-! TextSelectionOperator algebra (§4.2). All relations are
resource-scoped: cross-resource pairs never match. -/

/-- Modelled from the spec (§4.2): `Embeds(A,B)`:
`A.begin <= B.begin and A.end >= B.end` (boundaries may touch). -/
def embeds (x y : TextSelection) : Bool :=
  x.res == y.res && (x.b ≤ y.b && y.e ≤ x.e)

/-- Modelled from the spec (§4.2): `Embedded(A,B)`: A lies inside B. -/
def embedded (x y : TextSelection) : Bool :=
  x.res == y.res && (y.b ≤ x.b && x.e ≤ y.e)

/-- Modelled from the spec (§4.2): `Before(A,B)`: `A.end <= B.begin`. -/
def before (x y : TextSelection) : Bool :=
  x.res == y.res && x.e ≤ y.b

/-- Modelled from the spec (§4.2): `After(A,B)`: B ends before A begins. -/
def after (x y : TextSelection) : Bool :=
  x.res == y.res && y.e ≤ x.b

/-- Modelled from the spec (§4.2): an operator applied to two *sets* of
selections holds when it holds for some qualifying pair (the default
existential quantifier over pairs). -/
def setOp (op : TextSelection → TextSelection → Bool) (xs ys : List TextSelection) : Bool :=
  xs.any (fun x => ys.any (fun y => op x y))

/-- The query text of the local-alignment scenario. -/
def localalign2Text : List Char := "human beings are free and equal in rights".data

/-- The full declaration text of the alignment fixture. -/
def align1Text : List Char :=
  ("All human beings are born free and equal in dignity and rights. They are endowed " ++
   "with reason and conscience and should act towards one another in a spirit of brotherhood.").data

/-! Theorems. -/

/-- C1: for every resource with text `T` and every begin-aligned offset
`(b, e)` with `0 ≤ b ≤ e ≤ len(T)`, `resource.textselection(Offset(b,e))`
succeeds and the text of the returned selection is the slice `T[b:e]`. -/
theorem textselection_roundtrip (r : TextResource) (b e : Nat)
    (hbe : b ≤ e) (hel : e ≤ r.text.length) :
    r.textselection (Offset.simple b e) = Except.ok ⟨r.id, b, e⟩ ∧
    (TextSelection.mk r.id b e).textIn r = sliceL r.text b e := by
  have hbl : b ≤ r.text.length := le_trans hbe hel
  refine ⟨?_, rfl⟩
  simp [TextResource.textselection, Offset.simple, resolveCursor, hbl, hel, hbe]

/-- Witness for C1: on "Hello world", `Offset(0,5)` yields the span whose
text is "Hello". -/
theorem textselection_roundtrip_witness :
    helloRes.textselection (Offset.simple 0 5) = Except.ok ⟨"testres", 0, 5⟩ ∧
    (TextSelection.mk "testres" 0 5).textIn helloRes = sliceL helloRes.text 0 5 :=
  textselection_roundtrip helloRes 0 5 (by decide) (by decide)

/-- Helper: the only resolution error of a cursor is out-of-bounds. -/
theorem resolveCursor_error (len : Nat) (c : Cursor) (er : StamError)
    (h : resolveCursor len c = Except.error er) : er = StamError.offsetOutOfBounds := by
  cases c with
  | beginAligned n =>
      by_cases hn : n ≤ len
      · simp [resolveCursor, hn] at h
      · simp [resolveCursor, hn] at h; exact h.symm
  | endAligned n =>
      by_cases hn : n ≤ len
      · simp [resolveCursor, hn] at h
      · simp [resolveCursor, hn] at h; exact h.symm

/-- C8: `resource.textselection(offset)` fails with the out-of-bounds
error whenever either cursor does not resolve inside `[0, len]` (the
resolution itself fails) or the resolved begin exceeds the resolved
end. -/
theorem textselection_outofbounds (r : TextResource) (off : Offset)
    (h : ∀ b e, resolveCursor r.text.length off.b = Except.ok b →
      resolveCursor r.text.length off.e = Except.ok e → e < b) :
    r.textselection off = Except.error StamError.offsetOutOfBounds := by
  unfold TextResource.textselection
  cases hb : resolveCursor r.text.length off.b with
  | error er =>
      have her : er = StamError.offsetOutOfBounds := resolveCursor_error _ _ _ hb
      subst her
      simp [hb]
  | ok b =>
      cases he : resolveCursor r.text.length off.e with
      | error er =>
          have her : er = StamError.offsetOutOfBounds := resolveCursor_error _ _ _ he
          subst her
          simp [hb, he]
      | ok e =>
          have hlt := h b e hb he
          simp [hb, he, Nat.not_le.mpr hlt]

/-- Witness for C8: `Offset(0,999)` on the 11-character text
"Hello world" raises the out-of-bounds error. -/
theorem textselection_outofbounds_witness :
    helloRes.textselection (Offset.simple 0 999) = Except.error StamError.offsetOutOfBounds :=
  textselection_outofbounds helloRes (Offset.simple 0 999) (by
    intro b e _ he
    simp [Offset.simple, resolveCursor, helloRes] at he)

/-- Helper: the existential set lifting commutes with swapping an
operator's arguments. -/
theorem setOp_swap (op op2 : TextSelection → TextSelection → Bool)
    (h : ∀ x y, op x y = op2 y x) (xs ys : List TextSelection) :
    setOp op xs ys = setOp op2 ys xs := by
  apply Bool.eq_iff_iff.mpr
  simp only [setOp, List.any_eq_true]
  constructor
  · rintro ⟨x, hx, y, hy, hop⟩
    exact ⟨y, hy, x, hx, by rw [← h]; exact hop⟩
  · rintro ⟨y, hy, x, hx, hop⟩
    exact ⟨x, hx, y, hy, by rw [h]; exact hop⟩

/-- Helper: `Embeds` with swapped arguments is `Embedded`. -/
theorem embeds_swap (x y : TextSelection) : embeds x y = embedded y x := by
  unfold embeds embedded
  by_cases h : x.res = y.res
  · simp [h, Bool.and_comm]
  · simp [beq_eq_false_iff_ne.mpr h, beq_eq_false_iff_ne.mpr (Ne.symm h)]

/-- Helper: `Before` with swapped arguments is `After`. -/
theorem before_swap (x y : TextSelection) : before x y = after y x := by
  unfold before after
  by_cases h : x.res = y.res
  · simp [h]
  · simp [beq_eq_false_iff_ne.mpr h, beq_eq_false_iff_ne.mpr (Ne.symm h)]

/-- Helper: members of an insertion are the inserted element or members
of the original list. -/
theorem mem_insertBy {α : Type} (le : α → α → Bool) (x : α) :
    ∀ (l : List α) (b : α), b ∈ insertBy le x l → b = x ∨ b ∈ l := by
  intro l
  induction l with
  | nil =>
      intro b hb
      simp [insertBy] at hb
      exact Or.inl hb
  | cons y ys ih =>
      intro b hb
      simp only [insertBy] at hb
      by_cases h : le x y = true
      · simp [h] at hb
        rcases hb with h1 | h1 | h1
        · exact Or.inl h1
        · exact Or.inr (by simp [h1])
        · exact Or.inr (by simp [h1])
      · simp [h] at hb
        rcases hb with h1 | h1
        · exact Or.inr (by simp [h1])
        · rcases ih b h1 with h2 | h2
          · exact Or.inl h2
          · exact Or.inr (by simp [h2])

/-- Helper: insertion keeps a list sorted for a total, transitive
boolean order. -/
theorem insertBy_pairwise {α : Type} (le : α → α → Bool)
    (htot : ∀ a b, le a b = false → le b a = true)
    (htrans : ∀ a b c, le a b = true → le b c = true → le a c = true)
    (x : α) : ∀ l : List α, l.Pairwise (fun a b => le a b = true) →
      (insertBy le x l).Pairwise (fun a b => le a b = true) := by
  intro l
  induction l with
  | nil => intro _; simp [insertBy]
  | cons y ys ih =>
      intro hl
      rcases List.pairwise_cons.mp hl with ⟨hy, hys⟩
      simp only [insertBy]
      by_cases h : le x y = true
      · simp only [h, if_true]
        refine List.pairwise_cons.mpr ⟨?_, hl⟩
        intro b hb
        rcases List.mem_cons.mp hb with h1 | h1
        · subst h1; exact h
        · exact htrans x y b h (hy b h1)
      · have hflip : le x y = false := by
          cases hxy : le x y
          · rfl
          · exact absurd hxy h
        simp only [hflip, Bool.false_eq_true, if_false]
        refine List.pairwise_cons.mpr ⟨?_, ih hys⟩
        intro b hb
        rcases mem_insertBy le x ys b hb with h1 | h1
        · rw [h1]; exact htot x y hflip
        · exact hy b h1

/-- Helper: insertion sort outputs a sorted list for a total, transitive
boolean order. -/
theorem sortBy_pairwise {α : Type} (le : α → α → Bool)
    (htot : ∀ a b, le a b = false → le b a = true)
    (htrans : ∀ a b c, le a b = true → le b c = true → le a c = true) :
    ∀ l : List α, (sortBy le l).Pairwise (fun a b => le a b = true) := by
  intro l
  induction l with
  | nil => simp [sortBy]
  | cons x xs ih => exact insertBy_pairwise le htot htrans x _ ih

/-- Helper: the key order is total. -/
theorem keyLE_total (a b : Option (Nat × Nat)) (h : keyLE a b = false) :
    keyLE b a = true := by
  cases a with
  | none =>
      cases b with
      | none => simp [keyLE] at h
      | some pb => simp [keyLE]
  | some pa =>
      cases b with
      | none => simp [keyLE] at h
      | some pb =>
          obtain ⟨b1, e1⟩ := pa
          obtain ⟨b2, e2⟩ := pb
          simp only [keyLE, decide_eq_false_iff_not, decide_eq_true_eq] at h ⊢
          omega

/-- Helper: the key order is transitive. -/
theorem keyLE_trans (a b c : Option (Nat × Nat))
    (h1 : keyLE a b = true) (h2 : keyLE b c = true) : keyLE a c = true := by
  cases a with
  | none =>
      cases b with
      | none => cases c <;> simp_all [keyLE]
      | some pb => cases c <;> simp_all [keyLE]
  | some pa =>
      cases b with
      | none => cases c <;> simp_all [keyLE]
      | some pb =>
          cases c with
          | none => simp [keyLE]
          | some pc =>
              obtain ⟨b1, e1⟩ := pa
              obtain ⟨b2, e2⟩ := pb
              obtain ⟨b3, e3⟩ := pc
              simp only [keyLE, decide_eq_true_eq] at h1 h2 ⊢
              omega

/-- Helper: the span order is total. -/
theorem spanLE_total (x y : TextSelection) (h : spanLE x y = false) :
    spanLE y x = true := by
  simp only [spanLE, decide_eq_false_iff_not, decide_eq_true_eq] at h ⊢
  omega

/-- Helper: the span order is transitive. -/
theorem spanLE_trans (x y z : TextSelection)
    (h1 : spanLE x y = true) (h2 : spanLE y z = true) : spanLE x z = true := by
  simp only [spanLE, decide_eq_true_eq] at h1 h2 ⊢
  omega

/-- C3: in the composite-selector fixture (`A1` on `[6,11)` declared
first, `A2` on `[0,5)` declared second, text "Hello world"),
`annotations_in_targets()` returns exactly `[A2, A1]` sorted by textual
position, and `textselections()` returns exactly the spans `[0,5)` and
`[6,11)` whose texts are "Hello" and "world", in textual order. -/
theorem composite_scenario :
    store4.annosInTargets wordAnno = ["A2", "A1"] ∧
    store4.textselectionsOf wordAnno =
      Except.ok [⟨"testres", 0, 5⟩, ⟨"testres", 6, 11⟩] ∧
    (store4.textselectionsOf wordAnno).map (fun l => l.map (fun ts => ts.textIn helloRes)) =
      Except.ok ["Hello".data, "world".data] := by
  decide

/-- C4 (counterexample): in the composite fixture the declaration order
of the sub-selectors is `[A1, A2]`, but `annotations_in_targets()` does
not return that order. -/
theorem composite_declorder_counterexample :
    targetIds wordAnno.target = ["A1", "A2"] ∧
    store4.annosInTargets wordAnno ≠ ["A1", "A2"] := by
  decide

/-- C4 (amended): for every annotation, `annotations_in_targets()`
returns the child annotations sorted by textual position (the same
ordering as the text-yielding operations, not declaration order), and
resolving a composite selector yields spans sorted by begin offset. -/
theorem composite_textual_order (s : AnnoStore) (a : Anno) :
    (s.annosInTargets a).Pairwise (fun x y => keyLE (s.posKey x) (s.posKey y) = true) ∧
    (∀ fuel children l, a.target = Selector.compositeselector children →
      resolveSel s (fuel + 1) a.target = Except.ok l →
      l.Pairwise (fun x y => spanLE x y = true)) := by
  constructor
  · exact sortBy_pairwise _
      (fun u v h => keyLE_total (s.posKey u) (s.posKey v) h)
      (fun u v w h1 h2 => keyLE_trans (s.posKey u) (s.posKey v) (s.posKey w) h1 h2)
      (targetIds a.target)
  · intro fuel children l htarget hres
    rw [htarget] at hres
    simp only [resolveSel, resolveSelStep] at hres
    cases hm : resolveSelMany (resolveSel s fuel) children with
    | error er => rw [hm] at hres; simp [Bind.bind, Except.bind] at hres
    | ok ls =>
        rw [hm] at hres
        simp only [Bind.bind, Except.bind, Except.ok.injEq] at hres
        subst hres
        exact sortBy_pairwise spanLE spanLE_total spanLE_trans ls.flatten

/-- Witness for C4 (amended): the composite fixture's results are
sorted. -/
theorem composite_textual_order_witness :
    (store4.annosInTargets wordAnno).Pairwise
      (fun x y => keyLE (store4.posKey x) (store4.posKey y) = true) ∧
    ([⟨"testres", 0, 5⟩, (⟨"testres", 6, 11⟩ : TextSelection)]).Pairwise
      (fun x y => spanLE x y = true) :=
  ⟨(composite_textual_order store4 wordAnno).1,
   (composite_textual_order store4 wordAnno).2 4
     [Selector.annoselector "A1" Offset.whole, Selector.annoselector "A2" Offset.whole]
     [⟨"testres", 0, 5⟩, ⟨"testres", 6, 11⟩] rfl (by decide)⟩

/-- Helper: `find?` misses every element of a list filtered by a
predicate that excludes all matches. -/
theorem find?_filter_none {α : Type} (p q : α → Bool) :
    ∀ l : List α, (∀ a ∈ l, p a = true → q a = false) →
      (l.filter q).find? p = none := by
  intro l
  induction l with
  | nil => intro _; rfl
  | cons a rest ih =>
      intro h
      by_cases hq : q a = true
      · have hp : p a = false := by
          cases hpa : p a
          · rfl
          · rw [h a (List.mem_cons_self a rest) hpa] at hq; cases hq
        simp only [List.filter_cons, hq, if_true, List.find?_cons, hp]
        exact ih (fun b hb => h b (List.mem_cons_of_mem a hb))
      · have hq' : q a = false := by
          cases hqa : q a
          · rfl
          · exact absurd hqa hq
        simp only [List.filter_cons, hq', Bool.false_eq_true, if_false]
        exact ih (fun b hb => h b (List.mem_cons_of_mem a hb))

/-- C7: removing a dataset cascades: afterwards, looking up any
annotation id all of whose bearers referenced data of that dataset
fails with `notFound`. -/
theorem removeDataset_cascades (s : AnnoStore) (dsid aid : String)
    (h : ∀ a ∈ s.annos, a.id = aid → a.usesDataset dsid = true) :
    (s.removeDataset dsid).anno aid = Except.error StamError.notFound := by
  unfold AnnoStore.anno AnnoStore.removeDataset
  have hfind :
      (s.annos.filter (fun a => !(a.usesDataset dsid))).find? (fun a => a.id == aid) = none := by
    apply find?_filter_none
    intro a ha hp
    have : a.id = aid := by simpa using hp
    simp [h a ha this]
  simp only [hfind]

/-- Witness for C7: in the removal fixture, `A1` references data of
`testdataset`; after removing the dataset, `store.annotation("A1")`
fails with `notFound`. -/
theorem removeDataset_cascades_witness :
    (store8.removeDataset "testdataset").anno "A1" = Except.error StamError.notFound :=
  removeDataset_cascades store8 "testdataset" "A1" (by decide)

/-- Helper: `find?` over a map by a function that preserves the
predicate. -/
theorem find?_map_pres {α : Type} (p : α → Bool) (f : α → α)
    (hf : ∀ a, p (f a) = p a) :
    ∀ l : List α, (l.map f).find? p = (l.find? p).map f := by
  intro l
  induction l with
  | nil => rfl
  | cons a rest ih =>
      by_cases hp : p a = true
      · rw [List.map_cons, List.find?_cons_of_pos _ (by rw [hf]; exact hp),
          List.find?_cons_of_pos _ hp]
        rfl
      · have hp' : ¬ p a := hp
        rw [List.map_cons, List.find?_cons_of_neg _ (by rw [hf]; exact hp'),
          List.find?_cons_of_neg _ hp', ih]

/-- Helper: the only dataset-lookup error is `notFound`. -/
theorem dataset_error (s : AnnoStore) (dsid : String) (er : StamError)
    (h : s.dataset dsid = Except.error er) : er = StamError.notFound := by
  unfold AnnoStore.dataset at h
  cases hf : s.datasets.find? (fun d => d.id == dsid) <;> rw [hf] at h <;> simp_all

/-- Helper: after `removeData`, the dataset is looked up with the data
item filtered out. -/
theorem dataset_removeData (s : AnnoStore) (dsid did : String) :
    (s.removeData dsid did).dataset dsid =
      (s.dataset dsid).map
        (fun ds => { ds with data := ds.data.filter (fun d => !(d.id == did)) }) := by
  unfold AnnoStore.dataset AnnoStore.removeData
  dsimp only
  rw [find?_map_pres (fun d : AnnoDataSet => d.id == dsid)
    (fun ds : AnnoDataSet =>
      if ds.id == dsid then { ds with data := ds.data.filter (fun d => !(d.id == did)) } else ds)
    (fun ds => by by_cases h : (ds.id == dsid) = true <;> simp [h])]
  cases hds : s.datasets.find? (fun d => d.id == dsid) with
  | none => rfl
  | some ds =>
      have hid : ds.id = dsid := by
        have h2 := List.find?_some hds
        simpa using h2
      simp [hid, Except.map]

/-- Helper: after `removeKey`, the dataset is looked up with the key and
its data filtered out. -/
theorem dataset_removeKey (s : AnnoStore) (dsid k : String) :
    (s.removeKey dsid k).dataset dsid =
      (s.dataset dsid).map
        (fun ds => { ds with
          keys := ds.keys.filter (fun k2 => !(k2 == k)),
          data := ds.data.filter (fun d => !(d.key == k)) }) := by
  unfold AnnoStore.dataset AnnoStore.removeKey
  dsimp only
  rw [find?_map_pres (fun d : AnnoDataSet => d.id == dsid)
    (fun ds : AnnoDataSet => if ds.id == dsid then
      { ds with
        keys := ds.keys.filter (fun k2 => !(k2 == k)),
        data := ds.data.filter (fun d => !(d.key == k)) }
      else ds)
    (fun ds => by by_cases h : (ds.id == dsid) = true <;> simp [h])]
  cases hds : s.datasets.find? (fun d => d.id == dsid) with
  | none => rfl
  | some ds =>
      have hid : ds.id = dsid := by
        have h2 := List.find?_some hds
        simpa using h2
      simp [hid, Except.map]

/-- Helper: a list filtered on not being `k` has no element equal to
`k`. -/
theorem any_filter_self (k : String) (ks : List String) :
    (ks.filter (fun k2 => !(k2 == k))).any (fun k2 => k2 == k) = false := by
  rw [Bool.eq_false_iff]
  intro hc
  rcases List.any_eq_true.mp hc with ⟨x, hx, hxk⟩
  rcases List.mem_filter.mp hx with ⟨_, hxf⟩
  rw [hxk] at hxf
  simp at hxf

/-- C2 (counterexample): in the removal fixture the data `D1` (key
`pos`) is still referenced by annotation `A1`, yet strict removal of the
data (resp. the key) succeeds instead of raising a referential-integrity
error, and the store is changed: the data (resp. key) and the
referencing annotation are both no longer retrievable. -/
theorem strict_remove_counterexample :
    (store8.anno "A1").map Anno.id = Except.ok "A1" ∧
    store8.annos.any (fun a => a.usesData "testdataset" "D1") = true ∧
    ((store8.removeData "testdataset" "D1").anno "A1").map Anno.id =
      Except.error StamError.notFound ∧
    (store8.removeData "testdataset" "D1").annodata "testdataset" "D1" =
      Except.error StamError.notFound ∧
    ((store8.removeKey "testdataset" "pos").anno "A1").map Anno.id =
      Except.error StamError.notFound ∧
    (store8.removeKey "testdataset" "pos").datakey "testdataset" "pos" =
      Except.error StamError.notFound := by
  decide

/-- C2 (amended): strict removal of a data item (resp. key) cascades to
the annotations referencing it: afterwards the data item (resp. key)
and every annotation id all of whose bearers referenced it fail to be
looked up, with `notFound`. -/
theorem strict_remove_cascades (s : AnnoStore) (dsid did k aid aid2 : String)
    (hdata : ∀ a ∈ s.annos, a.id = aid → a.usesData dsid did = true)
    (hkey : ∀ a ∈ s.annos, a.id = aid2 → s.usesKey a dsid k = true) :
    (s.removeData dsid did).anno aid = Except.error StamError.notFound ∧
    (s.removeData dsid did).annodata dsid did = Except.error StamError.notFound ∧
    (s.removeKey dsid k).anno aid2 = Except.error StamError.notFound ∧
    (s.removeKey dsid k).datakey dsid k = Except.error StamError.notFound := by
  refine ⟨?_, ?_, ?_, ?_⟩
  · unfold AnnoStore.anno AnnoStore.removeData
    have hfind : (s.annos.filter (fun a => !(a.usesData dsid did))).find?
        (fun a => a.id == aid) = none := by
      apply find?_filter_none
      intro a ha hp
      have hid : a.id = aid := by simpa using hp
      simp [hdata a ha hid]
    simp only [hfind]
  · unfold AnnoStore.annodata
    rw [dataset_removeData]
    cases hds : s.dataset dsid with
    | error er =>
        have her : er = StamError.notFound := dataset_error s dsid er hds
        subst her
        rfl
    | ok ds =>
        simp only [Except.map]
        rw [find?_filter_none (fun d => d.id == did) (fun d => !(d.id == did)) ds.data
          (fun d _ hp => by simp [hp])]
  · unfold AnnoStore.anno AnnoStore.removeKey
    have hfind : (s.annos.filter (fun a => !(s.usesKey a dsid k))).find?
        (fun a => a.id == aid2) = none := by
      apply find?_filter_none
      intro a ha hp
      have hid : a.id = aid2 := by simpa using hp
      simp [hkey a ha hid]
    simp only [hfind]
  · unfold AnnoStore.datakey
    rw [dataset_removeKey]
    cases hds : s.dataset dsid with
    | error er =>
        have her : er = StamError.notFound := dataset_error s dsid er hds
        subst her
        rfl
    | ok ds =>
        simp only [Except.map]
        rw [any_filter_self k ds.keys]
        rfl

/-- Witness for C2 (amended): the cascade on the removal fixture. -/
theorem strict_remove_cascades_witness :
    (store8.removeData "testdataset" "D1").anno "A1" = Except.error StamError.notFound ∧
    (store8.removeData "testdataset" "D1").annodata "testdataset" "D1" =
      Except.error StamError.notFound ∧
    (store8.removeKey "testdataset" "pos").anno "A1" = Except.error StamError.notFound ∧
    (store8.removeKey "testdataset" "pos").datakey "testdataset" "pos" =
      Except.error StamError.notFound :=
  strict_remove_cascades store8 "testdataset" "D1" "pos" "A1" "A1" (by decide) (by decide)

/-- Helper: `find?` by a key value returns the member carrying it when
keys are pairwise distinct. -/
theorem find?_of_mem_unique {α : Type} (key : α → String) (kv : String) :
    ∀ (l : List α) (x : α), x ∈ l → key x = kv →
      l.Pairwise (fun u v => key u ≠ key v) →
      l.find? (fun y => key y == kv) = some x := by
  intro l
  induction l with
  | nil => intro x hx _ _; cases hx
  | cons a rest ih =>
      intro x hx hkv huniq
      rcases List.pairwise_cons.mp huniq with ⟨ha, hrest⟩
      rcases List.mem_cons.mp hx with h1 | h1
      · rw [List.find?_cons_of_pos _ (by rw [← h1, hkv]; simp)]
        rw [h1]
      · have hne : key a ≠ kv := by rw [← hkv]; exact ha x h1
        rw [List.find?_cons_of_neg _ (by simp [hne]), ih x h1 hkv hrest]

/-- C9: in a store composed from substores (with globally distinct
annotation ids), every annotation declared in an included substore is
enumerated by the parent (by default) with `.substore()` returning the
originating child store's identity, and every annotation declared
directly in the parent is enumerated with `.substore()` returning
none. -/
theorem substore_provenance (p : ParentStore)
    (huniq : (p.allAnnos true).Pairwise (fun x y => x.1.id ≠ y.1.id)) :
    (∀ a ∈ p.own, (a, (none : Option String)) ∈ p.allAnnos true ∧
      p.substoreOf a.id = Except.ok none) ∧
    (∀ sub ∈ p.substores, ∀ a ∈ sub.annos,
      (a, some sub.id) ∈ p.allAnnos true ∧
      p.substoreOf a.id = Except.ok (some sub.id)) := by
  constructor
  · intro a ha
    have hmem : (a, (none : Option String)) ∈ p.allAnnos true := by
      unfold ParentStore.allAnnos
      exact List.mem_append_left _ (List.mem_map_of_mem _ ha)
    refine ⟨hmem, ?_⟩
    unfold ParentStore.substoreOf
    rw [find?_of_mem_unique (fun x : Anno × Option String => x.1.id) a.id
      (p.allAnnos true) (a, none) hmem rfl huniq]
  · intro sub hsub a ha
    have hmem : (a, some sub.id) ∈ p.allAnnos true := by
      unfold ParentStore.allAnnos
      apply List.mem_append_right
      simp only [if_true]
      exact List.mem_flatten.mpr
        ⟨sub.annos.map (fun a => (a, some sub.id)), List.mem_map_of_mem _ hsub,
         List.mem_map_of_mem _ ha⟩
    refine ⟨hmem, ?_⟩
    unfold ParentStore.substoreOf
    rw [find?_of_mem_unique (fun x : Anno × Option String => x.1.id) a.id
      (p.allAnnos true) (a, some sub.id) hmem rfl huniq]

/-- Witness for C9: in the level-2 fixture, `A3` (declared in the
parent) has no substore, while `A2` and `Meta1` report their
originating substores. -/
theorem substore_provenance_witness :
    storeLevel2.substoreOf "A3" = Except.ok none ∧
    storeLevel2.substoreOf "A2" = Except.ok (some "level1ann") ∧
    storeLevel2.substoreOf "Meta1" = Except.ok (some "level1meta") := by
  have h := substore_provenance storeLevel2 (by decide)
  refine ⟨?_, ?_, ?_⟩
  · exact (h.1 ⟨"A3", Selector.annoselector "A2" Offset.whole, [("level2set", "DT")]⟩
      (by simp [storeLevel2])).2
  · exact ((h.2 ⟨"level1ann",
      [⟨"A2", Selector.textselector "testres" (Offset.simple 0 5), [("annset", "DW")]⟩]⟩
      (by simp [storeLevel2]))
      ⟨"A2", Selector.textselector "testres" (Offset.simple 0 5), [("annset", "DW")]⟩
      (by simp)).2
  · exact ((h.2 ⟨"level1meta",
      [⟨"Meta1", Selector.resourceselector "testres", [("testset", "DA")]⟩]⟩
      (by simp [storeLevel2]))
      ⟨"Meta1", Selector.resourceselector "testres", [("testset", "DA")]⟩
      (by simp)).2

set_option maxRecDepth 100000 in
/-- Helper: the concrete result of the local-alignment scenario. -/
theorem localAlignments_eq :
    localAlignments localalign2Text align1Text =
      [((0, 16), (4, 20)), ((16, 35), (25, 44)), ((36, 38), (45, 47))] := by
  decide

/-- C6: local alignment of "human beings are free and equal in rights"
against the full declaration text yields exactly one transposition
containing exactly 3 alignments, each alignment being a pair of
sub-spans whose texts are character-for-character identical. -/
theorem local_align_scenario :
    (alignTextsLocal localalign2Text align1Text).length = 1 ∧
    ∀ t ∈ alignTextsLocal localalign2Text align1Text,
      t.length = 3 ∧ ∀ al ∈ t,
        sliceL localalign2Text al.1.1 al.1.2 = sliceL align1Text al.2.1 al.2.2 := by
  have h : alignTextsLocal localalign2Text align1Text =
      [[((0, 16), (4, 20)), ((16, 35), (25, 44)), ((36, 38), (45, 47))]] := by
    unfold alignTextsLocal
    rw [localAlignments_eq]
  rw [h]
  refine ⟨rfl, ?_⟩
  intro t ht
  simp only [List.mem_singleton] at ht
  subst ht
  refine ⟨rfl, ?_⟩
  decide

/-- C5: the operator algebra is symmetric under inversion:
`Embeds(A,B) = Embedded(B,A)` and `Before(A,B) = After(B,A)` for all
spans, both for single selections and for the existential lifting to
sets of selections (multi-span annotations). -/
theorem operator_symmetry :
    (∀ x y : TextSelection, embeds x y = embedded y x ∧ before x y = after y x) ∧
    (∀ xs ys : List TextSelection,
      setOp embeds xs ys = setOp embedded ys xs ∧ setOp before xs ys = setOp after ys xs) :=
  ⟨fun x y => ⟨embeds_swap x y, before_swap x y⟩,
   fun xs ys => ⟨setOp_swap embeds embedded embeds_swap xs ys,
     setOp_swap before after before_swap xs ys⟩⟩

end Stam
